import Mathlib

/-!
Shallow embedding of the `FeeRate` unit type (`units/src/fee_rate.rs`) and the
parts of its collaborators `Amount` and `Weight` that its operations consume.

Machine integers (`u64`) are modelled as `Nat`.  Checked operations return
`Option` exactly where the Rust code does; non-checked (operator) arithmetic is
modelled with explicit wrapping (`% 2 ^ 64`), the release-profile semantics of
Rust unsigned arithmetic.  Division by zero, which faults in every build
profile, is modelled by `Option`.
-/

/-- `2 ^ 64`, the modulus of `u64` arithmetic. -/
def U64_SIZE : Nat := 2 ^ 64

/-- `u64::MAX`. -/
def U64_MAX : Nat := 2 ^ 64 - 1

/-- Rust `u64::checked_mul`: `None` exactly on 64-bit overflow. -/
def checkedMulU64 (a b : Nat) : Option Nat :=
  if a * b ≤ U64_MAX then some (a * b) else none

/-- Rust `u64::checked_add`: `None` exactly on 64-bit overflow. -/
def checkedAddU64 (a b : Nat) : Option Nat :=
  if a + b ≤ U64_MAX then some (a + b) else none

/-- Rust `u64::checked_sub`: `None` exactly on underflow. -/
def checkedSubU64 (a b : Nat) : Option Nat :=
  if b ≤ a then some (a - b) else none

/-- Rust `u64::checked_div`: `None` exactly when the divisor is zero. -/
def checkedDivU64 (a b : Nat) : Option Nat :=
  if b = 0 then none else some (a / b)

/-- Modelled from the spec: `Amount` (source file `amount.rs` is not part of
the core) wraps a 64-bit satoshi count. -/
structure Amount where
  sat : Nat
deriving DecidableEq, Repr

/-- Modelled from the spec: `Amount::from_sat(u64) -> Amount`. -/
def Amount.from_sat (n : Nat) : Amount := ⟨n⟩

/-- Modelled from the spec: `Amount::to_sat(self) -> u64`. -/
def Amount.to_sat (a : Amount) : Nat := a.sat

/-- Modelled from the spec: `Weight` (source file `weight.rs` is not part of
the core) wraps a 64-bit weight-unit count. -/
structure Weight where
  wu : Nat
deriving DecidableEq, Repr

/-- Modelled from the spec: `Weight::from_wu(u64) -> Weight`. -/
def Weight.from_wu (n : Nat) : Weight := ⟨n⟩

/-- Modelled from the spec: `Weight::to_wu(self) -> u64`. -/
def Weight.to_wu (w : Weight) : Nat := w.wu

/-- `pub struct FeeRate(u64)`: fee rate in sat/kwu. -/
structure FeeRate where
  val : Nat
deriving DecidableEq, Repr

namespace FeeRate

/-- `FeeRate::from_sat_per_kwu`. -/
def from_sat_per_kwu (sat_kwu : Nat) : FeeRate := ⟨sat_kwu⟩

/-- `FeeRate::ZERO`. -/
def ZERO : FeeRate := ⟨0⟩

/-- `FeeRate::MIN`. -/
def MIN : FeeRate := ZERO

/-- `FeeRate::MAX`. -/
def MAX : FeeRate := ⟨U64_MAX⟩

/-- `FeeRate::from_sat_per_vb`: `Some(FeeRate(sat_vb.checked_mul(1000 / 4)?))`. -/
def from_sat_per_vb (sat_vb : Nat) : Option FeeRate :=
  (checkedMulU64 sat_vb (1000 / 4)).map fun r => ⟨r⟩

/-- `FeeRate::from_sat_per_vb_unchecked`: `FeeRate(sat_vb * (1000 / 4))` with
release-profile wrapping. -/
def from_sat_per_vb_unchecked (sat_vb : Nat) : FeeRate :=
  ⟨sat_vb * (1000 / 4) % U64_SIZE⟩

/-- `FeeRate::BROADCAST_MIN`. -/
def BROADCAST_MIN : FeeRate := from_sat_per_vb_unchecked 1

/-- `FeeRate::DUST`. -/
def DUST : FeeRate := from_sat_per_vb_unchecked 3

/-- `FeeRate::from_sat_per_kvb`: `FeeRate(sat_kvb / 4)`. -/
def from_sat_per_kvb (sat_kvb : Nat) : FeeRate := ⟨sat_kvb / 4⟩

/-- `FeeRate::to_sat_per_kwu`. -/
def to_sat_per_kwu (f : FeeRate) : Nat := f.val

/-- `FeeRate::to_sat_per_vb_floor`: `self.0 / (1000 / 4)`. -/
def to_sat_per_vb_floor (f : FeeRate) : Nat := f.val / (1000 / 4)

/-- `FeeRate::to_sat_per_vb_ceil`: `(self.0 + (1000 / 4 - 1)) / (1000 / 4)`;
the addition is non-checked, hence wraps. -/
def to_sat_per_vb_ceil (f : FeeRate) : Nat :=
  ((f.val + (1000 / 4 - 1)) % U64_SIZE) / (1000 / 4)

/-- `FeeRate::checked_mul`. -/
def checked_mul (f : FeeRate) (rhs : Nat) : Option FeeRate :=
  match checkedMulU64 f.val rhs with
  | some res => some ⟨res⟩
  | none => none

/-- `FeeRate::checked_div`. -/
def checked_div (f : FeeRate) (rhs : Nat) : Option FeeRate :=
  match checkedDivU64 f.val rhs with
  | some res => some ⟨res⟩
  | none => none

/-- `FeeRate::checked_mul_by_weight`. -/
def checked_mul_by_weight (f : FeeRate) (rhs : Weight) : Option Amount :=
  match checkedMulU64 f.val rhs.to_wu with
  | some mul_res =>
    match checkedAddU64 mul_res 999 with
    | some add_res => some (Amount.from_sat (add_res / 1000))
    | none => none
  | none => none

/-- `FeeRate::checked_add`. -/
def checked_add (f : FeeRate) (rhs : Nat) : Option FeeRate :=
  match checkedAddU64 f.val rhs with
  | some res => some ⟨res⟩
  | none => none

/-- `FeeRate::checked_sub`. -/
def checked_sub (f : FeeRate) (rhs : Nat) : Option FeeRate :=
  match checkedSubU64 f.val rhs with
  | some res => some ⟨res⟩
  | none => none

/-- `impl Add for FeeRate`: `FeeRate(self.0 + rhs.0)`, wrapping. -/
def add (f rhs : FeeRate) : FeeRate := ⟨(f.val + rhs.val) % U64_SIZE⟩

/-- `impl Add<FeeRate> for &FeeRate`. -/
def ref_add (f other : FeeRate) : FeeRate := ⟨(f.val + other.val) % U64_SIZE⟩

/-- `impl Add<&FeeRate> for FeeRate`. -/
def add_ref (f other : FeeRate) : FeeRate := ⟨(f.val + other.val) % U64_SIZE⟩

/-- `impl Add<&FeeRate> for &FeeRate`. -/
def ref_add_ref (f other : FeeRate) : FeeRate := ⟨(f.val + other.val) % U64_SIZE⟩

/-- `impl Sub for FeeRate`: `FeeRate(self.0 - rhs.0)`, wrapping. -/
def sub (f rhs : FeeRate) : FeeRate := ⟨(U64_SIZE + f.val - rhs.val) % U64_SIZE⟩

/-- `impl Sub<FeeRate> for &FeeRate`. -/
def ref_sub (f other : FeeRate) : FeeRate := ⟨(U64_SIZE + f.val - other.val) % U64_SIZE⟩

/-- `impl Sub<&FeeRate> for FeeRate`. -/
def sub_ref (f other : FeeRate) : FeeRate := ⟨(U64_SIZE + f.val - other.val) % U64_SIZE⟩

/-- `impl Sub<&FeeRate> for &FeeRate`. -/
def ref_sub_ref (f other : FeeRate) : FeeRate := ⟨(U64_SIZE + f.val - other.val) % U64_SIZE⟩

/-- `impl AddAssign for FeeRate`: the value left in `self` after `self.0 += rhs.0`. -/
def add_assign (f rhs : FeeRate) : FeeRate := ⟨(f.val + rhs.val) % U64_SIZE⟩

/-- `impl AddAssign<&FeeRate> for FeeRate`. -/
def add_assign_ref (f rhs : FeeRate) : FeeRate := ⟨(f.val + rhs.val) % U64_SIZE⟩

/-- `impl SubAssign for FeeRate`: the value left in `self` after `self.0 -= rhs.0`. -/
def sub_assign (f rhs : FeeRate) : FeeRate := ⟨(U64_SIZE + f.val - rhs.val) % U64_SIZE⟩

/-- `impl SubAssign<&FeeRate> for FeeRate`. -/
def sub_assign_ref (f rhs : FeeRate) : FeeRate := ⟨(U64_SIZE + f.val - rhs.val) % U64_SIZE⟩

end FeeRate

/-- `impl Mul<FeeRate> for Weight`:
`Amount::from_sat((rhs.to_sat_per_kwu() * self.to_wu() + 999) / 1000)`,
each non-checked step wrapping. -/
def Weight.mul_fee_rate (w : Weight) (rhs : FeeRate) : Amount :=
  Amount.from_sat ((rhs.to_sat_per_kwu * w.to_wu % U64_SIZE + 999) % U64_SIZE / 1000)

/-- `impl Mul<Weight> for FeeRate`: `rhs * self`. -/
def FeeRate.mul_weight (f : FeeRate) (rhs : Weight) : Amount :=
  rhs.mul_fee_rate f

/-- `impl Div<Weight> for Amount`: `FeeRate(self.to_sat() * 1000 / rhs.to_wu())`.
Division by zero faults in every Rust build profile, modelled by `none`;
the non-checked multiplication wraps. -/
def Amount.div_by_weight (a : Amount) (rhs : Weight) : Option FeeRate :=
  if rhs.to_wu = 0 then none
  else some ⟨a.to_sat * 1000 % U64_SIZE / rhs.to_wu⟩

/-- Rust `impl Sum for u64`: fold of the non-checked (wrapping) addition. -/
def u64Sum (l : List Nat) : Nat :=
  l.foldl (fun acc x => (acc + x) % U64_SIZE) 0

/-- `impl Sum for FeeRate`:
`FeeRate::from_sat_per_kwu(iter.map(FeeRate::to_sat_per_kwu).sum())`. -/
def FeeRate.sumList (l : List FeeRate) : FeeRate :=
  FeeRate.from_sat_per_kwu (u64Sum (l.map FeeRate.to_sat_per_kwu))

/-- `impl Sum<&FeeRate> for FeeRate`:
`FeeRate::from_sat_per_kwu(iter.map(|f| FeeRate::to_sat_per_kwu(*f)).sum())`. -/
def FeeRate.sumRefList (l : List FeeRate) : FeeRate :=
  FeeRate.from_sat_per_kwu (u64Sum (l.map fun f => FeeRate.to_sat_per_kwu f))

/-! ### Shared helper lemmas -/

theorem checked_mul_by_weight_eq (f : FeeRate) (w : Weight) :
    f.checked_mul_by_weight w =
      if f.val * w.wu + 999 ≤ U64_MAX then
        some (Amount.from_sat ((f.val * w.wu + 999) / 1000))
      else none := by
  unfold FeeRate.checked_mul_by_weight checkedMulU64 checkedAddU64 Weight.to_wu
  by_cases h1 : f.val * w.wu ≤ U64_MAX
  · rw [if_pos h1]
    by_cases h2 : f.val * w.wu + 999 ≤ U64_MAX
    · simp [h2]
    · simp [h2]
  · rw [if_neg h1]
    have h2 : ¬ (f.val * w.wu + 999 ≤ U64_MAX) := by omega
    simp [h2]

theorem u64Sum_eq_sum_mod (l : List Nat) : u64Sum l = l.sum % U64_SIZE := by
  have key : ∀ (l : List Nat) (acc : Nat),
      l.foldl (fun acc x => (acc + x) % U64_SIZE) (acc % U64_SIZE)
        = (acc + l.sum) % U64_SIZE := by
    intro l
    induction l with
    | nil => intro acc; simp
    | cons x xs ih =>
      intro acc
      have hstep : (acc % U64_SIZE + x) % U64_SIZE = (acc + x) % U64_SIZE :=
        Nat.mod_add_mod acc U64_SIZE x
      simp only [List.foldl_cons, List.sum_cons]
      rw [hstep, ih (acc + x), Nat.add_assoc]
  have h0 : (0 : Nat) % U64_SIZE = 0 := by decide
  unfold u64Sum
  rw [← h0, key]
  simp

/-! ### Claim theorems -/

/-- C1: `checked_mul_by_weight(r, w)` returns `Some` of the ceiling amount
`(r * w + 999) / 1000` whenever both the multiplication and the addition of
999 fit in 64 bits, and returns `None` exactly when either step overflows. -/
theorem fee_rate_checked_mul_by_weight_spec (f : FeeRate) (w : Weight)
    (hf : f.val ≤ U64_MAX) (hw : w.wu ≤ U64_MAX) :
    (f.val * w.wu + 999 ≤ U64_MAX →
      f.checked_mul_by_weight w =
        some (Amount.from_sat ((f.val * w.wu + 999) / 1000))) ∧
    (f.checked_mul_by_weight w = none ↔
      U64_MAX < f.val * w.wu ∨ U64_MAX < f.val * w.wu + 999) := by
  rw [checked_mul_by_weight_eq]
  constructor
  · intro h; simp [h]
  · split_ifs with h <;> simp <;> omega

/-- C1 witness: rate 864 sat/kwu times weight 381 wu fits in 64 bits and
yields Amount 330. -/
theorem fee_rate_checked_mul_by_weight_spec_witness :
    FeeRate.checked_mul_by_weight ⟨864⟩ ⟨381⟩ = some (Amount.from_sat 330) := by
  have h := fee_rate_checked_mul_by_weight_spec ⟨864⟩ ⟨381⟩ (by decide) (by decide)
  have h2 := h.1 (by decide)
  simpa using h2

/-- C5: `from_sat_per_kwu(x).to_sat_per_kwu() == x` for every u64 `x`. -/
theorem fee_rate_kwu_roundtrip (x : Nat) (hx : x ≤ U64_MAX) :
    (FeeRate.from_sat_per_kwu x).to_sat_per_kwu = x := rfl

/-- C5 witness at `x = 7`. -/
theorem fee_rate_kwu_roundtrip_witness :
    (FeeRate.from_sat_per_kwu 7).to_sat_per_kwu = 7 :=
  fee_rate_kwu_roundtrip 7 (by decide)

/-- C8: `from_sat_per_kvb` never fails and truncates: its raw sat/kwu value is
`sat_kvb / 4`, and `from_sat_per_kvb(10)` is the 2 sat/kwu rate. -/
theorem fee_rate_from_sat_per_kvb_spec (sat_kvb : Nat) (h : sat_kvb ≤ U64_MAX) :
    (FeeRate.from_sat_per_kvb sat_kvb).to_sat_per_kwu = sat_kvb / 4 ∧
    FeeRate.from_sat_per_kvb 10 = FeeRate.from_sat_per_kwu 2 := by
  exact ⟨rfl, by decide⟩

/-- C8 witness at `sat_kvb = 10`. -/
theorem fee_rate_from_sat_per_kvb_spec_witness :
    (FeeRate.from_sat_per_kvb 10).to_sat_per_kwu = 10 / 4 ∧
    FeeRate.from_sat_per_kvb 10 = FeeRate.from_sat_per_kwu 2 :=
  fee_rate_from_sat_per_kvb_spec 10 (by decide)

/-- C2 counterexample: at `x = u64::MAX` the non-checked addition inside
`to_sat_per_vb_ceil` wraps, the result is 0, and `ceil * 250 >= x` fails. -/
theorem fee_rate_vb_ceil_counterexample :
    ¬ (U64_MAX ≤ (FeeRate.from_sat_per_kwu U64_MAX).to_sat_per_vb_ceil * 250) := by
  decide

/-- C2 (amended): for every u64 `x` for which the internal addition `x + 249`
does not overflow 64 bits, `to_sat_per_vb_ceil() * 250 >= x`, and when
`x > 0` also `(to_sat_per_vb_ceil() - 1) * 250 < x`. -/
theorem fee_rate_vb_ceil_spec (x : Nat) (hx : x + 249 ≤ U64_MAX) :
    x ≤ (FeeRate.from_sat_per_kwu x).to_sat_per_vb_ceil * 250 ∧
    (0 < x → ((FeeRate.from_sat_per_kwu x).to_sat_per_vb_ceil - 1) * 250 < x) := by
  unfold FeeRate.to_sat_per_vb_ceil FeeRate.from_sat_per_kwu U64_SIZE
  unfold U64_MAX at hx
  simp only []
  norm_num
  omega

/-- C2 witness at `x = 333` (ceil is 2). -/
theorem fee_rate_vb_ceil_spec_witness :
    333 + 249 ≤ U64_MAX ∧
    333 ≤ (FeeRate.from_sat_per_kwu 333).to_sat_per_vb_ceil * 250 :=
  ⟨by decide, (fee_rate_vb_ceil_spec 333 (by decide)).1⟩

/-- C3: `from_sat_per_vb(sat_vb)` is `None` exactly when `sat_vb * 250`
overflows 64 bits, i.e. when `sat_vb > u64::MAX / 250`, and otherwise is
`Some` of the rate with raw value `sat_vb * 250`. -/
theorem fee_rate_from_sat_per_vb_spec (sat_vb : Nat) (h : sat_vb ≤ U64_MAX) :
    (FeeRate.from_sat_per_vb sat_vb = none ↔ U64_MAX / 250 < sat_vb) ∧
    (U64_MAX / 250 < sat_vb ↔ U64_MAX < sat_vb * 250) ∧
    (sat_vb * 250 ≤ U64_MAX →
      FeeRate.from_sat_per_vb sat_vb = some (FeeRate.from_sat_per_kwu (sat_vb * 250))) := by
  have hiff : U64_MAX / 250 < sat_vb ↔ U64_MAX < sat_vb * 250 := by
    rw [Nat.div_lt_iff_lt_mul (by norm_num)]
  refine ⟨?_, hiff, ?_⟩
  · unfold FeeRate.from_sat_per_vb checkedMulU64
    rw [hiff]
    split_ifs with hle
    · simp; omega
    · simp; omega
  · intro hle
    unfold FeeRate.from_sat_per_vb checkedMulU64 FeeRate.from_sat_per_kwu
    have : sat_vb * (1000 / 4) ≤ U64_MAX := by norm_num; omega
    simp [this]

/-- C3 witness: `from_sat_per_vb(10)` is the 2500 sat/kwu rate and
`from_sat_per_vb(u64::MAX)` is `None`. -/
theorem fee_rate_from_sat_per_vb_spec_witness :
    FeeRate.from_sat_per_vb 10 = some (FeeRate.from_sat_per_kwu 2500) ∧
    FeeRate.from_sat_per_vb U64_MAX = none := by
  constructor
  · have h := (fee_rate_from_sat_per_vb_spec 10 (by decide)).2.2 (by decide)
    simpa using h
  · exact ((fee_rate_from_sat_per_vb_spec U64_MAX (by decide)).1).mpr (by decide)

theorem checked_add_eq (f : FeeRate) (n : Nat) :
    f.checked_add n = if f.val + n ≤ U64_MAX then some ⟨f.val + n⟩ else none := by
  unfold FeeRate.checked_add checkedAddU64
  split_ifs <;> rfl

theorem checked_sub_eq (f : FeeRate) (n : Nat) :
    f.checked_sub n = if n ≤ f.val then some ⟨f.val - n⟩ else none := by
  unfold FeeRate.checked_sub checkedSubU64
  split_ifs <;> rfl

theorem checked_mul_eq (f : FeeRate) (n : Nat) :
    f.checked_mul n = if f.val * n ≤ U64_MAX then some ⟨f.val * n⟩ else none := by
  unfold FeeRate.checked_mul checkedMulU64
  split_ifs <;> rfl

theorem checked_div_eq (f : FeeRate) (n : Nat) :
    f.checked_div n = if n = 0 then none else some ⟨f.val / n⟩ := by
  unfold FeeRate.checked_div checkedDivU64
  split_ifs <;> rfl

/-- C4: the checked operations are total (never panic) and return `None`
exactly on the arithmetic fault of the underlying u64, otherwise `Some` of
the exact u64 result. -/
theorem fee_rate_checked_ops_spec (f : FeeRate) (n : Nat)
    (hf : f.val ≤ U64_MAX) (hn : n ≤ U64_MAX) :
    (f.checked_add n = none ↔ U64_MAX < f.val + n) ∧
    (∀ g, f.checked_add n = some g → g.val = f.val + n) ∧
    (f.checked_sub n = none ↔ f.val < n) ∧
    (∀ g, f.checked_sub n = some g → g.val = f.val - n) ∧
    (f.checked_mul n = none ↔ U64_MAX < f.val * n) ∧
    (∀ g, f.checked_mul n = some g → g.val = f.val * n) ∧
    (f.checked_div n = none ↔ n = 0) ∧
    (∀ g, f.checked_div n = some g → g.val = f.val / n) := by
  rw [checked_add_eq, checked_sub_eq, checked_mul_eq, checked_div_eq]
  refine ⟨?_, ?_, ?_, ?_, ?_, ?_, ?_, ?_⟩
  · split_ifs with hc <;> simp <;> omega
  · intro g hg
    split_ifs at hg with hc
    injection hg with hv
    rw [← hv]
  · split_ifs with hc <;> simp <;> omega
  · intro g hg
    split_ifs at hg with hc
    injection hg with hv
    rw [← hv]
  · split_ifs with hc <;> simp <;> omega
  · intro g hg
    split_ifs at hg with hc
    injection hg with hv
    rw [← hv]
  · split_ifs with hc <;> simp_all
  · intro g hg
    split_ifs at hg with hc
    injection hg with hv
    rw [← hv]

/-- C4 witness: `FeeRate::MAX.checked_add(1)` and `FeeRate::ZERO.checked_sub(1)`
are both `None`. -/
theorem fee_rate_checked_ops_spec_witness :
    FeeRate.MAX.checked_add 1 = none ∧ FeeRate.ZERO.checked_sub 1 = none := by
  constructor
  · exact (fee_rate_checked_ops_spec FeeRate.MAX 1 (by decide) (by decide)).1.mpr
      (by decide)
  · exact (fee_rate_checked_ops_spec FeeRate.ZERO 1 (by decide) (by decide)).2.2.1.mpr
      (by decide)

/-- C6: `FeeRate * Weight` and `Weight * FeeRate` are the same `Amount`, given
by the round-up formula `(r * w + 999) / 1000` when nothing overflows, and
agree with `checked_mul_by_weight` on every `Some` result. -/
theorem fee_rate_mul_weight_spec (f : FeeRate) (w : Weight) :
    f.mul_weight w = w.mul_fee_rate f ∧
    (f.val * w.wu + 999 ≤ U64_MAX →
      f.mul_weight w = Amount.from_sat ((f.val * w.wu + 999) / 1000)) ∧
    (∀ a, f.checked_mul_by_weight w = some a → f.mul_weight w = a) := by
  have hform : f.val * w.wu + 999 ≤ U64_MAX →
      f.mul_weight w = Amount.from_sat ((f.val * w.wu + 999) / 1000) := by
    intro hle
    unfold FeeRate.mul_weight Weight.mul_fee_rate FeeRate.to_sat_per_kwu
      Weight.to_wu U64_SIZE
    unfold U64_MAX at hle
    have h1 : f.val * w.wu % 2 ^ 64 = f.val * w.wu := Nat.mod_eq_of_lt (by omega)
    rw [h1]
    have h2 : (f.val * w.wu + 999) % 2 ^ 64 = f.val * w.wu + 999 :=
      Nat.mod_eq_of_lt (by omega)
    rw [h2]
  refine ⟨rfl, hform, ?_⟩
  intro a ha
  rw [checked_mul_by_weight_eq] at ha
  split_ifs at ha with hle
  · simp only [Option.some_inj] at ha
    rw [hform hle, ha]

/-- C6 witness: at rate 864 sat/kwu and weight 381 wu, `checked_mul_by_weight`
is `Some` and the unchecked product equals it. -/
theorem fee_rate_mul_weight_spec_witness :
    FeeRate.mul_weight ⟨864⟩ ⟨381⟩ = Amount.from_sat 330 :=
  (fee_rate_mul_weight_spec ⟨864⟩ ⟨381⟩).2.2 (Amount.from_sat 330) (by decide)

/-- C7: summing a list of `FeeRate` values (by value or by reference) equals
`from_sat_per_kwu` of the non-checked (wrapping) u64 sum of their raw
sat/kwu values. -/
theorem fee_rate_sum_spec (l : List FeeRate) :
    FeeRate.sumList l =
      FeeRate.from_sat_per_kwu ((l.map FeeRate.to_sat_per_kwu).sum % U64_SIZE) ∧
    FeeRate.sumRefList l =
      FeeRate.from_sat_per_kwu ((l.map FeeRate.to_sat_per_kwu).sum % U64_SIZE) := by
  unfold FeeRate.sumList FeeRate.sumRefList
  rw [u64Sum_eq_sum_mod]
  exact ⟨rfl, rfl⟩

/-- C9: `FeeRate` addition is commutative; all four value/reference operand
combinations of `+` and of `-` agree; the compound assignments leave the left
operand equal to the result of the corresponding non-assigning operator. -/
theorem fee_rate_add_sub_ops_spec (a b : FeeRate) :
    a.add b = b.add a ∧
    (a.add b = a.ref_add b ∧ a.add b = a.add_ref b ∧ a.add b = a.ref_add_ref b) ∧
    (a.sub b = a.ref_sub b ∧ a.sub b = a.sub_ref b ∧ a.sub b = a.ref_sub_ref b) ∧
    (a.add_assign b = a.add b ∧ a.add_assign_ref b = a.add b ∧
      a.sub_assign b = a.sub b ∧ a.sub_assign_ref b = a.sub b) := by
  refine ⟨?_, ⟨rfl, rfl, rfl⟩, ⟨rfl, rfl, rfl⟩, rfl, rfl, rfl, rfl⟩
  unfold FeeRate.add
  rw [Nat.add_comm]

/-- C10: `Amount / Weight` is partial: it is `None` exactly when the weight is
zero, the intermediate product `sat * 1000` exceeds 64 bits whenever
`sat > u64::MAX / 1000`, and under the precondition that the weight is
positive and the product fits, it returns the truncated quotient. -/
theorem amount_div_by_weight_spec (a : Amount) (w : Weight) (ha : a.sat ≤ U64_MAX) :
    (a.div_by_weight w = none ↔ w.wu = 0) ∧
    (U64_MAX / 1000 < a.sat → U64_MAX < a.sat * 1000) ∧
    (0 < w.wu → a.sat * 1000 ≤ U64_MAX →
      a.div_by_weight w = some (FeeRate.from_sat_per_kwu (a.sat * 1000 / w.wu))) := by
  unfold Amount.div_by_weight Amount.to_sat Weight.to_wu FeeRate.from_sat_per_kwu
  refine ⟨?_, ?_, ?_⟩
  · split_ifs with h0 <;> simp [h0]
  · intro hlt
    have h1 : U64_MAX / 1000 < a.sat ↔ U64_MAX < a.sat * 1000 :=
      Nat.div_lt_iff_lt_mul (by norm_num)
    exact h1.mp hlt
  · intro hpos hfit
    rw [if_neg (by omega)]
    have : a.sat * 1000 % U64_SIZE = a.sat * 1000 := by
      apply Nat.mod_eq_of_lt
      unfold U64_MAX at hfit
      unfold U64_SIZE
      omega
    rw [this]

/-- C10 witness: `Amount(329) / Weight(381 wu)` is `FeeRate(863)` (truncating),
matching the repository's own test. -/
theorem amount_div_by_weight_spec_witness :
    Amount.div_by_weight (Amount.from_sat 329) (Weight.from_wu 381) =
      some (FeeRate.from_sat_per_kwu 863) := by
  have h := (amount_div_by_weight_spec (Amount.from_sat 329) (Weight.from_wu 381)
    (by decide)).2.2 (by decide) (by decide)
  simpa using h
